import Mathlib

/-!
Verification development for the `box_plot_chart` repository.

The repository's core is (a) a quartile/outlier statistics engine
(`src/quartile.rs`) and (b) a chart-processing pipeline (`src/lib.rs`).
Numeric values in the source are `f64`.  Two embeddings are used:

* an exact model over `ℚ` — valid on NaN-free inputs whose intermediate
  computations stay finite (every `f64` is either a rational, an infinity
  or a NaN; the functions of the source modelled here are compositions of
  field operations, exact on rationals, plus `log10`/`powf`/`floor`/`ceil`,
  which are modelled by their exact real-semantics counterparts);
* an IEEE-style model `FP` with explicit `nan`/`+inf`/`-inf` values, used
  for the claims about degenerate inputs (zero range span, NaN samples),
  where the special values are the whole point.
-/

namespace BoxPlotChart

instance instDecEqExcept {ε α : Type} [DecidableEq ε] [DecidableEq α] :
    DecidableEq (Except ε α) := fun x y =>
  match x, y with
  | .error a, .error b =>
    if h : a = b then .isTrue (by rw [h]) else .isFalse (by simp [h])
  | .ok a, .ok b =>
    if h : a = b then .isTrue (by rw [h]) else .isFalse (by simp [h])
  | .error _, .ok _ => .isFalse (by simp)
  | .ok _, .error _ => .isFalse (by simp)

/-- `arr.sort_by(|a, b| a.partial_cmp(b).unwrap())` at `src/quartile.rs:25-27`:
a comparison sort of the values, ascending.  On NaN-free input (the `ℚ`
model) the comparator is total and the sort is modelled as a plain sort. -/
def sortValues (values : List ℚ) : List ℚ :=
  List.insertionSort (· ≤ ·) values

/-- The `Quartile` struct of `src/quartile.rs:3-15`. -/
structure Quartile where
  lower_outliers : List ℚ
  lower_fence : ℚ
  min_before_lower_fence : ℚ
  lower_median : ℚ
  median : ℚ
  upper_median : ℚ
  max_before_upper_fence : ℚ
  upper_fence : ℚ
  upper_outliers : List ℚ
  iqr : ℚ
deriving DecidableEq, Repr

/-- `len` at `src/quartile.rs:29` (length of the sorted copy). -/
def qlen (values : List ℚ) : ℕ :=
  (sortValues values).length

/-- `midpoint = len / 2` at `src/quartile.rs:30`. -/
def qmid (values : List ℚ) : ℕ :=
  qlen values / 2

/-- `median` at `src/quartile.rs:34-42`: even length averages the two
middle elements, odd length takes the middle element.  Out-of-range
indices (never reached for length ≥ 3) default to 0. -/
def qmedian (values : List ℚ) : ℚ :=
  if qlen values % 2 = 0 then
    ((sortValues values).getD (qmid values - 1) 0 +
      (sortValues values).getD (qmid values) 0) / 2
  else
    (sortValues values).getD (qmid values) 0

/-- `upper_median` at `src/quartile.rs:34-42`:
`arr[midpoint + midpoint / 2]` for even length,
`arr[midpoint + 1 + midpoint / 2]` for odd length. -/
def qupperMedian (values : List ℚ) : ℚ :=
  if qlen values % 2 = 0 then
    (sortValues values).getD (qmid values + qmid values / 2) 0
  else
    (sortValues values).getD (qmid values + 1 + qmid values / 2) 0

/-- `lower_median = arr[midpoint / 2]` at `src/quartile.rs:44`. -/
def qlowerMedian (values : List ℚ) : ℚ :=
  (sortValues values).getD (qmid values / 2) 0

/-- `iqr = upper_median - lower_median` at `src/quartile.rs:45`. -/
def qiqr (values : List ℚ) : ℚ :=
  qupperMedian values - qlowerMedian values

/-- `lower_fence = lower_median - 1.5f64 * iqr` at `src/quartile.rs:46`
(the constant `1.5` is written `3/2`, the same rational). -/
def qlowerFence (values : List ℚ) : ℚ :=
  qlowerMedian values - 3 / 2 * qiqr values

/-- `upper_fence = upper_median + 1.5f64 * iqr` at `src/quartile.rs:47`
(the constant `1.5` is written `3/2`, the same rational). -/
def qupperFence (values : List ℚ) : ℚ :=
  qupperMedian values + 3 / 2 * qiqr values

/-- `lower_outliers` at `src/quartile.rs:48-52`: the longest prefix of the
sorted array whose elements are `< lower_fence` (`take_while`). -/
def qlowerOutliers (values : List ℚ) : List ℚ :=
  (sortValues values).takeWhile (fun n => decide (n < qlowerFence values))

/-- `upper_outliers` at `src/quartile.rs:53-57`: note the source takes a
`take_while` prefix **from the front** of the ascending-sorted array with
predicate `> upper_fence` — modelled literally. -/
def qupperOutliers (values : List ℚ) : List ℚ :=
  (sortValues values).takeWhile (fun n => decide (qupperFence values < n))

/-- `min_before_lower_fence = arr[lower_outliers.len()]` at `src/quartile.rs:58`. -/
def qminBeforeLowerFence (values : List ℚ) : ℚ :=
  (sortValues values).getD (qlowerOutliers values).length 0

/-- `max_before_upper_fence = arr[arr.len() - upper_outliers.len() - 1]`
at `src/quartile.rs:59`. -/
def qmaxBeforeUpperFence (values : List ℚ) : ℚ :=
  (sortValues values).getD
    ((sortValues values).length - (qupperOutliers values).length - 1) 0

/-- The `Ok` payload built at `src/quartile.rs:61-72`. -/
def mkQuartile (values : List ℚ) : Quartile where
  lower_outliers := qlowerOutliers values
  lower_fence := qlowerFence values
  min_before_lower_fence := qminBeforeLowerFence values
  lower_median := qlowerMedian values
  median := qmedian values
  upper_median := qupperMedian values
  max_before_upper_fence := qmaxBeforeUpperFence values
  upper_fence := qupperFence values
  upper_outliers := qupperOutliers values
  iqr := qiqr values

/-- `Quartile::new` at `src/quartile.rs:18-73`: errors for fewer than 3
values, otherwise builds the summary from the sorted copy. -/
def Quartile.new (values : List ℚ) : Except String Quartile :=
  if values.length < 3 then
    .error "Minimum of 3 values needed for a quartile range"
  else
    .ok (mkQuartile values)

/-- `Quartile::min_value` at `src/quartile.rs:115-121`. -/
def Quartile.min_value (q : Quartile) : ℚ :=
  if q.lower_outliers.isEmpty then q.min_before_lower_fence
  else q.lower_outliers.getD 0 0

/-- `Quartile::max_value` at `src/quartile.rs:123-129`
(`upper_outliers.last().unwrap()` in the nonempty branch). -/
def Quartile.max_value (q : Quartile) : ℚ :=
  if q.upper_outliers.isEmpty then q.max_before_upper_fence
  else q.upper_outliers.getLastD 0

example :
    Quartile.new [48, 52, 57, 64, 72, 76, 77, 81, 85, 88] =
      .ok { lower_outliers := [], lower_fence := 21,
            min_before_lower_fence := 48, lower_median := 57, median := 74,
            upper_median := 81, max_before_upper_fence := 88,
            upper_fence := 117, upper_outliers := [], iqr := 24 } := by
  with_unfolding_all decide

example :
    Quartile.new [5, 6, 48, 52, 57, 61, 64, 72, 76, 77, 81, 85, 88] =
      .ok { lower_outliers := [5, 6], lower_fence := 17 / 2,
            min_before_lower_fence := 48, lower_median := 52, median := 64,
            upper_median := 81, max_before_upper_fence := 88,
            upper_fence := 249 / 2, upper_outliers := [], iqr := 29 } := by
  with_unfolding_all decide

/-- The index the source reads `upper_median` from (`src/quartile.rs:37,41`). -/
def qupperIdx (values : List ℚ) : ℕ :=
  if qlen values % 2 = 0 then qmid values + qmid values / 2
  else qmid values + 1 + qmid values / 2

/-- `ItemData` at `src/lib.rs:71-75`. -/
structure ItemData where
  key : String
  values : List ℚ
deriving DecidableEq, Repr

/-- `ChartData` at `src/lib.rs:64-69`. -/
structure ChartData where
  title : String
  units : String
  data : List ItemData
deriving DecidableEq, Repr

/-- `Gutter` at `src/lib.rs:77-83`. -/
structure Gutter where
  left : ℚ
  top : ℚ
  right : ℚ
  bottom : ℚ
deriving DecidableEq, Repr

/-- `RenderData` at `src/lib.rs:85-98`. -/
structure RenderData where
  title : String
  units : String
  y_axis_height : ℚ
  y_axis_range : ℚ × ℚ
  y_axis_interval : ℚ
  y_axis_dps : ℕ
  gutter : Gutter
  box_plot_width : ℚ
  outlier_radius : ℚ
  styles : List String
  quartile_tuples : List (String × Quartile)
deriving DecidableEq, Repr

set_option exponentiation.threshold 1100 in
/-- The exact value of `f64::MAX` (the power is computed in `ℕ` so that
concrete evaluation is fast). -/
def f64MAX : ℚ := ((2 ^ 1024 - 2 ^ 971 : ℕ) : ℚ)

/-- The exact value of `f64::MIN` (`= -f64::MAX`). -/
def f64MIN : ℚ := -f64MAX

/-- One iteration of the loop at `src/lib.rs:146-160`: compute the series
quartile (propagating its error with `?`), widen the running min/max
range, append the `(key, quartile)` tuple. -/
def stepQuartiles (acc : List (String × Quartile) × ℚ × ℚ) (item : ItemData) :
    Except String (List (String × Quartile) × ℚ × ℚ) := do
  let q ← Quartile.new item.values
  let lo := if q.min_value < acc.2.1 then q.min_value else acc.2.1
  let hi := if q.max_value > acc.2.2 then q.max_value else acc.2.2
  pure (acc.1 ++ [(item.key, q)], lo, hi)

/-- The whole loop at `src/lib.rs:143-160`, starting from
`(vec![], (f64::MAX, f64::MIN))`. -/
def quartilesAndRange (items : List ItemData) :
    Except String (List (String × Quartile) × ℚ × ℚ) :=
  items.foldlM stepQuartiles ([], f64MAX, f64MIN)

/-- The aggregated `y_axis_range` before snapping (`src/lib.rs:143-160`). -/
def aggRange (cd : ChartData) : Except String (ℚ × ℚ) :=
  (quartilesAndRange cd.data).map (fun r => r.2)

/-- `(span.log10()).ceil()` as used at `src/lib.rs:163`, in exact real
semantics: the least integer `k` with `span ≤ 10 ^ k` (`Int.clog`).  Valid
for `span > 0`; for `span ≤ 0` this is junk (`f64` gives `-inf`/NaN there —
that degenerate path is covered by the `FP` model below). -/
def ceilLog10 (q : ℚ) : ℤ :=
  Int.clog 10 q

/-- `y_axis_interval` at `src/lib.rs:162-164`:
`10.0.powf((range.1 - range.0).log10().ceil()) / 20.0`. -/
def axisInterval (span : ℚ) : ℚ :=
  (10 : ℚ) ^ ceilLog10 span / 20

/-- `y_axis_dps` at `src/lib.rs:165-170`: `interval.log10() < 0` exactly
when `0 < interval < 1`, and there `dps.abs().ceil() as usize` is
`⌈log10 (1/interval)⌉ = Int.clog 10 interval⁻¹`; otherwise 0. -/
def axisDps (interval : ℚ) : ℕ :=
  if interval < 1 then (Int.clog 10 interval⁻¹).toNat else 0

/-- The stylesheet literals at `src/lib.rs:196-203`. -/
def chartStyles : List String :=
  [".box-plot\x7bfill:none;stroke:rgb(0,0,0);stroke-width:1;\x7d",
   ".outlier\x7bfill:none;stroke:rgb(0,0,0);stroke-width:1;\x7d",
   ".axis\x7bfill:none;stroke:rgb(0,0,0);stroke-width:1;\x7d",
   ".labels\x7bfill:rgb(0,0,0);font-size:10;font-family:Arial\x7d",
   ".y-labels\x7btext-anchor:end;\x7d",
   ".title\x7bfont-family:Arial;font-size:12;text-anchor:middle;\x7d"]

/-- `BoxPlotChartTool::process_chart_data` at `src/lib.rs:142-206`:
per-series quartiles and aggregated range, tick interval, label decimal
places, snapped range (`floor`/`ceil` to multiples of the interval), and
the fixed layout constants. -/
def process_chart_data (cd : ChartData) : Except String RenderData := do
  let (quartile_tuples, range) ← quartilesAndRange cd.data
  let y_axis_interval := axisInterval (range.2 - range.1)
  let y_axis_dps := axisDps y_axis_interval
  let y_axis_range : ℚ × ℚ :=
    ((⌊range.1 / y_axis_interval⌋ : ℤ) * y_axis_interval,
     (⌈range.2 / y_axis_interval⌉ : ℤ) * y_axis_interval)
  pure
    { title := cd.title
      units := cd.units
      y_axis_height := 400
      y_axis_range
      y_axis_interval
      y_axis_dps
      gutter := { left := 80, top := 40, right := 80, bottom := 80 }
      box_plot_width := 60
      outlier_radius := 2
      styles := chartStyles
      quartile_tuples }

/-- `height` at `src/lib.rs:212`. -/
def renderHeight (rd : RenderData) : ℚ :=
  rd.gutter.top + rd.gutter.bottom + rd.y_axis_height

/-- `y_scale` at `src/lib.rs:214`: `y_axis_height / (range.1 - range.0)`.
In `ℚ` a zero divisor yields the junk value 0; the `FP` model below gives
the `f64` behaviour (an infinity). -/
def yScale (rd : RenderData) : ℚ :=
  rd.y_axis_height / (rd.y_axis_range.2 - rd.y_axis_range.1)

/-- The `scale` closure at `src/lib.rs:215-216`:
`height - gutter.bottom - (n - range.0) * y_scale`. -/
def scaleValue (rd : RenderData) (n : ℚ) : ℚ :=
  renderHeight rd - rd.gutter.bottom - (n - rd.y_axis_range.1) * yScale rd

/-- The inline `cy` expression for outlier circles at `src/lib.rs:306`:
`height - gutter.bottom - (v - range.0) * y_scale`. -/
def outlierCY (rd : RenderData) (v : ℚ) : ℚ :=
  renderHeight rd - rd.gutter.bottom - (v - rd.y_axis_range.1) * yScale rd

/-- The five box-plot landmark `y` values at `src/lib.rs:282-291`, each
mapped through `scale`. -/
def boxLandmarkYs (rd : RenderData) (q : Quartile) : List ℚ :=
  [q.max_before_upper_fence, q.upper_median, q.median, q.lower_median,
   q.min_before_lower_fence].map (scaleValue rd)

/-- A `RenderData` whose snapped range is degenerate
(`range_max = range_min`), exercising the division at `src/lib.rs:214`. -/
def rdDegenerate : RenderData where
  title := "t"
  units := "u"
  y_axis_height := 400
  y_axis_range := (5, 5)
  y_axis_interval := 1
  y_axis_dps := 0
  gutter := { left := 80, top := 40, right := 80, bottom := 80 }
  box_plot_width := 60
  outlier_radius := 2
  styles := chartStyles
  quartile_tuples := []

set_option maxRecDepth 8000 in
set_option exponentiation.threshold 1100 in
example :
    aggRange { title := "t", units := "u",
               data := [{ key := "a", values := [5, 5, 5] }] } = .ok (5, 5) := by
  with_unfolding_all decide

/-- An IEEE-754-style value: NaN, the two infinities, or a finite value
(every finite `f64` is a rational; signed zero is not distinguished, and
none of the modelled operations below produce `-0.0` from the inputs the
theorems use). -/
inductive FP where
  | nan : FP
  | pinf : FP
  | ninf : FP
  | fin : ℚ → FP
deriving DecidableEq, Repr

/-- IEEE negation. -/
def FP.neg : FP → FP
  | .nan => .nan
  | .pinf => .ninf
  | .ninf => .pinf
  | .fin q => .fin (-q)

/-- IEEE addition: NaN propagates, opposite infinities give NaN, finite
addition is exact on rationals. -/
def FP.add : FP → FP → FP
  | .nan, _ => .nan
  | _, .nan => .nan
  | .pinf, .ninf => .nan
  | .ninf, .pinf => .nan
  | .pinf, _ => .pinf
  | _, .pinf => .pinf
  | .ninf, _ => .ninf
  | _, .ninf => .ninf
  | .fin a, .fin b => .fin (a + b)

/-- IEEE subtraction (`a - b = a + (-b)` exactly). -/
def FP.sub (a b : FP) : FP :=
  a.add b.neg

/-- IEEE multiplication: NaN propagates, `±inf * 0 = NaN`, infinities obey
the sign rule, finite multiplication is exact. -/
def FP.mul : FP → FP → FP
  | .nan, _ => .nan
  | _, .nan => .nan
  | .pinf, .pinf => .pinf
  | .pinf, .ninf => .ninf
  | .ninf, .pinf => .ninf
  | .ninf, .ninf => .pinf
  | .pinf, .fin b => if b = 0 then .nan else if 0 < b then .pinf else .ninf
  | .fin a, .pinf => if a = 0 then .nan else if 0 < a then .pinf else .ninf
  | .ninf, .fin b => if b = 0 then .nan else if 0 < b then .ninf else .pinf
  | .fin a, .ninf => if a = 0 then .nan else if 0 < a then .ninf else .pinf
  | .fin a, .fin b => .fin (a * b)

/-- IEEE division: NaN propagates, `inf/inf = NaN`, `0/0 = NaN`, a nonzero
finite value divided by zero is a signed infinity, finite division is
exact. -/
def FP.div : FP → FP → FP
  | .nan, _ => .nan
  | _, .nan => .nan
  | .pinf, .pinf => .nan
  | .pinf, .ninf => .nan
  | .ninf, .pinf => .nan
  | .ninf, .ninf => .nan
  | .pinf, .fin b => if 0 ≤ b then .pinf else .ninf
  | .ninf, .fin b => if 0 ≤ b then .ninf else .pinf
  | .fin _, .pinf => .fin 0
  | .fin _, .ninf => .fin 0
  | .fin a, .fin b =>
    if b = 0 then (if a = 0 then .nan else if 0 < a then .pinf else .ninf)
    else .fin (a / b)

/-- IEEE `floor` (`f64::floor`). -/
def FP.floor : FP → FP
  | .nan => .nan
  | .pinf => .pinf
  | .ninf => .ninf
  | .fin q => .fin ⌊q⌋

/-- IEEE `ceil` (`f64::ceil`). -/
def FP.ceil : FP → FP
  | .nan => .nan
  | .pinf => .pinf
  | .ninf => .ninf
  | .fin q => .fin ⌈q⌉

/-- IEEE `abs` (`f64::abs`). -/
def FP.abs : FP → FP
  | .nan => .nan
  | .pinf => .pinf
  | .ninf => .pinf
  | .fin q => .fin |q|

/-- The IEEE `<` comparison: any comparison involving NaN is `false`. -/
def FP.ltb : FP → FP → Bool
  | .nan, _ => false
  | _, .nan => false
  | .ninf, .ninf => false
  | .ninf, _ => true
  | _, .ninf => false
  | .pinf, _ => false
  | .fin _, .pinf => true
  | .fin a, .fin b => decide (a < b)

/-- `f64::partial_cmp`: `None` exactly when an operand is NaN, otherwise
the total order on `-inf < finite < +inf`.  The sort comparator at
`src/quartile.rs:27` calls `.unwrap()` on this — `None` means a panic. -/
def FP.cmpOpt : FP → FP → Option Ordering
  | .nan, _ => none
  | _, .nan => none
  | .ninf, .ninf => some .eq
  | .ninf, _ => some .lt
  | _, .ninf => some .gt
  | .pinf, .pinf => some .eq
  | .pinf, _ => some .gt
  | _, .pinf => some .lt
  | .fin a, .fin b =>
    some (if a < b then .lt else if b < a then .gt else .eq)

/-- `f64::log10` with the finite positive case left as a parameter `f`
(the binary `log10` of a positive rational is irrational in general; every
theorem below that uses this model quantifies over `f`, so nothing depends
on the unspecified approximation).  The exact IEEE special cases:
`log10(0) = -inf`, `log10` of a negative value or NaN is NaN,
`log10(+inf) = +inf`. -/
def FP.log10With (f : ℚ → FP) : FP → FP
  | .nan => .nan
  | .pinf => .pinf
  | .ninf => .nan
  | .fin q => if q = 0 then .ninf else if q < 0 then .nan else f q

/-- `10.0_f64.powf(x)`: `10^(-inf) = 0`, `10^(+inf) = +inf`, NaN
propagates; a finite integral exponent (the only finite values the
embedded pipeline ever feeds it — the exponent is always a `ceil` result)
gives the exact power. -/
def FP.pow10 : FP → FP
  | .nan => .nan
  | .pinf => .pinf
  | .ninf => .fin 0
  | .fin q => if q.den = 1 then .fin ((10 : ℚ) ^ q.num) else .nan

/-- Rust's saturating float-to-`usize` cast (`as usize` on a 64-bit
target): NaN to 0, clamped to `[0, 2^64 - 1]`. -/
def FP.toUsize : FP → ℕ
  | .nan => 0
  | .pinf => 2 ^ 64 - 1
  | .ninf => 0
  | .fin q => if q < 0 then 0 else min (2 ^ 64 - 1) ⌊q⌋.toNat

/-- Lines `src/lib.rs:162-175` in the `FP` model, from the aggregated
range `(lo, hi)`: the tick interval, the label decimal places, and the
snapped range, exactly as the source computes them with `f64` arithmetic.
`f` is the (unspecified) finite-positive branch of `log10`. -/
def axisPlanFP (f : ℚ → FP) (lo hi : FP) : FP × ℕ × (FP × FP) :=
  let y_axis_interval :=
    FP.div (FP.pow10 (FP.ceil (FP.log10With f (FP.sub hi lo)))) (.fin 20)
  let dps := FP.log10With f y_axis_interval
  let y_axis_dps := if FP.ltb dps (.fin 0) then FP.toUsize (FP.ceil dps.abs) else 0
  (y_axis_interval, y_axis_dps,
    (FP.mul (FP.floor (FP.div lo y_axis_interval)) y_axis_interval,
     FP.mul (FP.ceil (FP.div hi y_axis_interval)) y_axis_interval))

/-- `y_scale` of `src/lib.rs:214` in the `FP` model:
`y_axis_height / (range.1 - range.0)`. -/
def yScaleFP (y_axis_height lo hi : FP) : FP :=
  FP.div y_axis_height (FP.sub hi lo)

/-- One insertion step of a stable comparison sort whose comparator is
`a.partial_cmp(b).unwrap()` (`src/quartile.rs:27`): `none` models the
panic of `.unwrap()` on a NaN comparison. -/
def insertFP (a : FP) : List FP → Option (List FP)
  | [] => some [a]
  | b :: l =>
    match FP.cmpOpt a b with
    | none => none
    | some .lt => some (a :: b :: l)
    | some _ => (insertFP a l).map (b :: ·)

/-- `arr.sort_by(|a, b| a.partial_cmp(b).unwrap())` in the `FP` model: a
stable insertion sort in the `Option` monad; `none` models the comparator
panicking.  (Rust's `slice::sort_by` is some stable comparison sort; on a
list that contains a NaN next to other elements every comparison-based
sort must at some point compare the NaN, and that comparison panics.) -/
def sortByFP : List FP → Option (List FP)
  | [] => some []
  | a :: l => (sortByFP l).bind (insertFP a)

/-- The `Quartile` struct over `FP` values. -/
structure QuartileFP where
  lower_outliers : List FP
  lower_fence : FP
  min_before_lower_fence : FP
  lower_median : FP
  median : FP
  upper_median : FP
  max_before_upper_fence : FP
  upper_fence : FP
  upper_outliers : List FP
  iqr : FP
deriving DecidableEq, Repr

/-- The body of `Quartile::new` (`src/quartile.rs:29-72`) over an already
sorted `FP` array, with IEEE arithmetic. -/
def mkQuartileFP (arr : List FP) : QuartileFP :=
  let len := arr.length
  let midpoint := len / 2
  let median :=
    if len % 2 = 0 then
      FP.div (FP.add (arr.getD (midpoint - 1) (.fin 0))
        (arr.getD midpoint (.fin 0))) (.fin 2)
    else arr.getD midpoint (.fin 0)
  let upper_median :=
    if len % 2 = 0 then arr.getD (midpoint + midpoint / 2) (.fin 0)
    else arr.getD (midpoint + 1 + midpoint / 2) (.fin 0)
  let lower_median := arr.getD (midpoint / 2) (.fin 0)
  let iqr := FP.sub upper_median lower_median
  let lower_fence := FP.sub lower_median (FP.mul (.fin (3 / 2)) iqr)
  let upper_fence := FP.add upper_median (FP.mul (.fin (3 / 2)) iqr)
  let lower_outliers := arr.takeWhile (fun n => FP.ltb n lower_fence)
  let upper_outliers := arr.takeWhile (fun n => FP.ltb upper_fence n)
  { lower_outliers
    lower_fence
    min_before_lower_fence := arr.getD lower_outliers.length (.fin 0)
    lower_median
    median
    upper_median
    max_before_upper_fence := arr.getD (len - upper_outliers.length - 1) (.fin 0)
    upper_fence
    upper_outliers
    iqr }

/-- `Quartile::new` over `FP` inputs: the length check, then the sort
(whose comparator may panic — `none`), then the total IEEE arithmetic. -/
def Quartile.newFP (values : List FP) : Option (Except String QuartileFP) :=
  if values.length < 3 then
    some (.error "Minimum of 3 values needed for a quartile range")
  else
    match sortByFP values with
    | none => none
    | some arr => some (.ok (mkQuartileFP arr))

example : Quartile.newFP [.fin 1, .nan, .fin 2] = none := by
  with_unfolding_all decide

lemma sortValues_sorted (l : List ℚ) : (sortValues l).Sorted (· ≤ ·) :=
  List.sorted_insertionSort _ l

lemma sortValues_perm (l : List ℚ) : List.Perm (sortValues l) l :=
  List.perm_insertionSort _ l

lemma sortValues_length (l : List ℚ) : (sortValues l).length = l.length :=
  (sortValues_perm l).length_eq

lemma qlen_eq (l : List ℚ) : qlen l = l.length :=
  sortValues_length l

lemma getD_eq_getElem (l : List ℚ) (d : ℚ) {i : ℕ} (h : i < l.length) :
    l.getD i d = l[i] := by
  simp [List.getD_eq_getElem?_getD, List.getElem?_eq_getElem h]

lemma getD_mem {l : List ℚ} {i : ℕ} (h : i < l.length) : l.getD i 0 ∈ l := by
  rw [getD_eq_getElem _ _ h]
  exact List.getElem_mem h

lemma sorted_getD_mono {l : List ℚ} (hs : l.Sorted (· ≤ ·)) {i j : ℕ}
    (hij : i ≤ j) (hj : j < l.length) : l.getD i 0 ≤ l.getD j 0 := by
  have hi : i < l.length := Nat.lt_of_le_of_lt hij hj
  rw [getD_eq_getElem _ _ hi, getD_eq_getElem _ _ hj]
  have := hs.rel_get_of_le (a := ⟨i, hi⟩) (b := ⟨j, hj⟩) hij
  simpa using this

lemma takeWhile_length_le {p : ℚ → Bool} :
    ∀ (l : List ℚ) (k : ℕ), k < l.length → p (l.getD k 0) = false →
      (l.takeWhile p).length ≤ k
  | [], k, h, _ => by simp at h
  | a :: t, 0, _, hp => by
    rw [List.getD_cons_zero] at hp
    simp [List.takeWhile_cons, hp]
  | a :: t, k + 1, h, hp => by
    rw [List.getD_cons_succ] at hp
    by_cases ha : p a
    · have ih := takeWhile_length_le t k (by simpa using h) hp
      simp only [List.takeWhile_cons, ha, if_true, List.length_cons]
      omega
    · simp [List.takeWhile_cons, ha]

lemma qupperMedian_eq_getD (values : List ℚ) :
    qupperMedian values = (sortValues values).getD (qupperIdx values) 0 := by
  by_cases h : qlen values % 2 = 0 <;> simp [qupperMedian, qupperIdx, h]

lemma qmidHalf_lt_qlen (values : List ℚ) (h : 3 ≤ values.length) :
    qmid values / 2 < qlen values := by
  have hq : qlen values = values.length := qlen_eq values
  unfold qmid
  omega

lemma qmidHalf_le_qupperIdx (values : List ℚ) :
    qmid values / 2 ≤ qupperIdx values := by
  unfold qupperIdx
  split <;> omega

lemma qupperIdx_lt_qlen (values : List ℚ) (h : 3 ≤ values.length) :
    qupperIdx values < qlen values := by
  have hq : qlen values = values.length := qlen_eq values
  unfold qupperIdx qmid
  split <;> omega

lemma qlowerMedian_le_qupperMedian (values : List ℚ) (h : 3 ≤ values.length) :
    qlowerMedian values ≤ qupperMedian values := by
  rw [qupperMedian_eq_getD]
  exact sorted_getD_mono (sortValues_sorted values) (qmidHalf_le_qupperIdx values)
    (qupperIdx_lt_qlen values h)

lemma qiqr_nonneg (values : List ℚ) (h : 3 ≤ values.length) : 0 ≤ qiqr values :=
  sub_nonneg.mpr (qlowerMedian_le_qupperMedian values h)

lemma qlowerFence_le_qlowerMedian (values : List ℚ) (h : 3 ≤ values.length) :
    qlowerFence values ≤ qlowerMedian values := by
  have := qiqr_nonneg values h
  unfold qlowerFence
  linarith

lemma qupperMedian_le_qupperFence (values : List ℚ) (h : 3 ≤ values.length) :
    qupperMedian values ≤ qupperFence values := by
  have := qiqr_nonneg values h
  unfold qupperFence
  linarith

lemma qupperOutliers_eq_nil (values : List ℚ) (h : 3 ≤ values.length) :
    qupperOutliers values = [] := by
  have h0 : 0 < (sortValues values).length := by
    rw [sortValues_length]
    omega
  have hle : (sortValues values).getD 0 0 ≤ qupperFence values := by
    calc (sortValues values).getD 0 0
        ≤ (sortValues values).getD (qupperIdx values) 0 :=
          sorted_getD_mono (sortValues_sorted values) (Nat.zero_le _)
            (qupperIdx_lt_qlen values h)
      _ = qupperMedian values := (qupperMedian_eq_getD values).symm
      _ ≤ qupperFence values := qupperMedian_le_qupperFence values h
  have hp : (fun n => decide (qupperFence values < n))
      ((sortValues values).getD 0 0) = false := by
    simpa using not_lt.mpr hle
  have := takeWhile_length_le (p := fun n => decide (qupperFence values < n))
    (sortValues values) 0 h0 hp
  exact List.eq_nil_of_length_eq_zero (Nat.le_zero.mp this)

lemma qlowerOutliers_length_le (values : List ℚ) (h : 3 ≤ values.length) :
    (qlowerOutliers values).length ≤ qmid values / 2 := by
  have hk : qmid values / 2 < (sortValues values).length := qmidHalf_lt_qlen values h
  have hle : qlowerFence values ≤ (sortValues values).getD (qmid values / 2) 0 :=
    qlowerFence_le_qlowerMedian values h
  have hp : (fun n => decide (n < qlowerFence values))
      ((sortValues values).getD (qmid values / 2) 0) = false := by
    simpa using not_lt.mpr hle
  exact takeWhile_length_le (p := fun n => decide (n < qlowerFence values))
    (sortValues values) _ hk hp

lemma qmaxBefore_eq_last (values : List ℚ) (h : 3 ≤ values.length) :
    qmaxBeforeUpperFence values = (sortValues values).getD (qlen values - 1) 0 := by
  unfold qmaxBeforeUpperFence
  rw [qupperOutliers_eq_nil values h]
  rfl

lemma qlowerMedian_le_qmedian (values : List ℚ) (h : 3 ≤ values.length) :
    qlowerMedian values ≤ qmedian values := by
  have hs := sortValues_sorted values
  have hq : qlen values = values.length := qlen_eq values
  have hsl : (sortValues values).length = values.length := sortValues_length values
  unfold qmedian
  by_cases hpar : qlen values % 2 = 0
  · rw [if_pos hpar]
    have hmidlt : qmid values < (sortValues values).length := by
      unfold qmid
      omega
    have hA : qlowerMedian values ≤ (sortValues values).getD (qmid values - 1) 0 := by
      unfold qlowerMedian
      exact sorted_getD_mono hs (by unfold qmid; omega) (by unfold qmid at *; omega)
    have hB : (sortValues values).getD (qmid values - 1) 0 ≤
        (sortValues values).getD (qmid values) 0 :=
      sorted_getD_mono hs (by omega) hmidlt
    linarith
  · rw [if_neg hpar]
    unfold qlowerMedian
    exact sorted_getD_mono hs (by omega) (by unfold qmid; omega)

lemma qmedian_le_qupperMedian (values : List ℚ) (h : 3 ≤ values.length) :
    qmedian values ≤ qupperMedian values := by
  have hs := sortValues_sorted values
  have hq : qlen values = values.length := qlen_eq values
  have hsl : (sortValues values).length = values.length := sortValues_length values
  rw [qupperMedian_eq_getD]
  unfold qmedian
  by_cases hpar : qlen values % 2 = 0
  · rw [if_pos hpar]
    have hmidlt : qmid values < (sortValues values).length := by
      unfold qmid
      omega
    have hA : (sortValues values).getD (qmid values - 1) 0 ≤
        (sortValues values).getD (qmid values) 0 :=
      sorted_getD_mono hs (by omega) hmidlt
    have hB : (sortValues values).getD (qmid values) 0 ≤
        (sortValues values).getD (qupperIdx values) 0 := by
      refine sorted_getD_mono hs ?_ (qupperIdx_lt_qlen values h)
      unfold qupperIdx
      split <;> omega
    linarith
  · rw [if_neg hpar]
    refine sorted_getD_mono hs ?_ (qupperIdx_lt_qlen values h)
    unfold qupperIdx
    split <;> omega

lemma qminBefore_le_qlowerMedian (values : List ℚ) (h : 3 ≤ values.length) :
    qminBeforeLowerFence values ≤ qlowerMedian values := by
  unfold qminBeforeLowerFence qlowerMedian
  exact sorted_getD_mono (sortValues_sorted values)
    (qlowerOutliers_length_le values h) (qmidHalf_lt_qlen values h)

lemma qupperMedian_le_qmaxBefore (values : List ℚ) (h : 3 ≤ values.length) :
    qupperMedian values ≤ qmaxBeforeUpperFence values := by
  rw [qmaxBefore_eq_last values h, qupperMedian_eq_getD]
  have hq : qlen values = values.length := qlen_eq values
  refine sorted_getD_mono (sortValues_sorted values) ?_ ?_
  · have := qupperIdx_lt_qlen values h
    omega
  · show qlen values - 1 < qlen values
    omega

lemma mem_le_last (values : List ℚ) (h : 3 ≤ values.length) {v : ℚ}
    (hv : v ∈ values) : v ≤ (sortValues values).getD (qlen values - 1) 0 := by
  have hsl : (sortValues values).length = values.length := sortValues_length values
  have hv' : v ∈ sortValues values := (sortValues_perm values).mem_iff.mpr hv
  obtain ⟨i, hi, hieq⟩ := List.getElem_of_mem hv'
  have hmono := sorted_getD_mono (sortValues_sorted values)
    (show i ≤ qlen values - 1 by have : qlen values = values.length := qlen_eq values; omega)
    (show qlen values - 1 < (sortValues values).length by
      have : qlen values = values.length := qlen_eq values
      omega)
  rw [getD_eq_getElem _ 0 hi, hieq] at hmono
  exact hmono

lemma last_mem (values : List ℚ) (h : 3 ≤ values.length) :
    (sortValues values).getD (qlen values - 1) 0 ∈ values := by
  refine (sortValues_perm values).mem_iff.mp (getD_mem ?_)
  have h1 : (sortValues values).length = values.length := sortValues_length values
  have h2 : qlen values = values.length := qlen_eq values
  omega

lemma except_bind_ok {ε α β : Type} (a : α) (f : α → Except ε β) :
    ((.ok a : Except ε α) >>= f) = f a := rfl

lemma except_bind_err {ε α β : Type} (e : ε) (f : α → Except ε β) :
    ((.error e : Except ε α) >>= f) = .error e := rfl

lemma stepQuartiles_err (acc : List (String × Quartile) × ℚ × ℚ)
    (item : ItemData) (hlen : item.values.length < 3) :
    stepQuartiles acc item =
      .error "Minimum of 3 values needed for a quartile range" := by
  unfold stepQuartiles Quartile.new
  rw [if_pos hlen]
  rfl

lemma stepQuartiles_ok (acc : List (String × Quartile) × ℚ × ℚ)
    (item : ItemData) (hlen : ¬ item.values.length < 3) :
    stepQuartiles acc item = .ok
      (acc.1 ++ [(item.key, mkQuartile item.values)],
       (if (mkQuartile item.values).min_value < acc.2.1 then
          (mkQuartile item.values).min_value else acc.2.1),
       (if (mkQuartile item.values).max_value > acc.2.2 then
          (mkQuartile item.values).max_value else acc.2.2)) := by
  unfold stepQuartiles Quartile.new
  rw [if_neg hlen]
  rfl

lemma foldlM_step_ok_iff :
    ∀ (items : List ItemData) (acc : List (String × Quartile) × ℚ × ℚ),
      (∃ r, items.foldlM stepQuartiles acc = .ok r) ↔
        ∀ it ∈ items, 3 ≤ it.values.length
  | [], acc => by
    rw [List.foldlM_nil]
    constructor
    · intro _ it hit
      simp at hit
    · intro _
      exact ⟨acc, rfl⟩
  | item :: rest, acc => by
    rw [List.foldlM_cons]
    by_cases hlen : item.values.length < 3
    · rw [stepQuartiles_err acc item hlen, except_bind_err]
      constructor
      · rintro ⟨r, hr⟩
        exact Except.noConfusion hr
      · intro hall
        have := hall item (by simp)
        omega
    · rw [stepQuartiles_ok acc item hlen, except_bind_ok]
      rw [foldlM_step_ok_iff rest _]
      constructor
      · intro hrest it hit
        rcases List.mem_cons.mp hit with heq | hmem
        · subst heq
          omega
        · exact hrest it hmem
      · intro hall it hmem
        exact hall it (List.mem_cons_of_mem _ hmem)

lemma foldlM_step_through (post : List ItemData) (bad : ItemData)
    (hbad : bad.values.length < 3) :
    ∀ (pre : List ItemData) (acc : List (String × Quartile) × ℚ × ℚ),
      (∀ it ∈ pre, 3 ≤ it.values.length) →
      (pre ++ bad :: post).foldlM stepQuartiles acc =
        .error "Minimum of 3 values needed for a quartile range"
  | [], acc, _ => by
    rw [List.nil_append, List.foldlM_cons, stepQuartiles_err acc bad hbad,
      except_bind_err]
  | p :: pre, acc, hpre => by
    have hp : ¬ p.values.length < 3 := by
      have := hpre p (by simp)
      omega
    rw [List.cons_append, List.foldlM_cons, stepQuartiles_ok acc p hp,
      except_bind_ok]
    exact foldlM_step_through post bad hbad pre _
      (fun it hit => hpre it (List.mem_cons_of_mem _ hit))

lemma process_eq_of_fold_ok (cd : ChartData)
    (r : List (String × Quartile) × ℚ × ℚ)
    (hq : quartilesAndRange cd.data = .ok r) :
    process_chart_data cd = .ok
      { title := cd.title
        units := cd.units
        y_axis_height := 400
        y_axis_range :=
          ((⌊r.2.1 / axisInterval (r.2.2 - r.2.1)⌋ : ℤ) * axisInterval (r.2.2 - r.2.1),
           (⌈r.2.2 / axisInterval (r.2.2 - r.2.1)⌉ : ℤ) * axisInterval (r.2.2 - r.2.1))
        y_axis_interval := axisInterval (r.2.2 - r.2.1)
        y_axis_dps := axisDps (axisInterval (r.2.2 - r.2.1))
        gutter := { left := 80, top := 40, right := 80, bottom := 80 }
        box_plot_width := 60
        outlier_radius := 2
        styles := chartStyles
        quartile_tuples := r.1 } := by
  obtain ⟨t, lo, hi⟩ := r
  unfold process_chart_data
  rw [hq, except_bind_ok]
  rfl

lemma process_eq_of_fold_err (cd : ChartData) (e : String)
    (hq : quartilesAndRange cd.data = .error e) :
    process_chart_data cd = .error e := by
  unfold process_chart_data
  rw [hq, except_bind_err]

lemma FP.cmpOpt_isSome {a b : FP} (ha : a ≠ .nan) (hb : b ≠ .nan) :
    ∃ o, FP.cmpOpt a b = some o := by
  cases a <;> cases b <;>
    first
      | exact absurd rfl ha
      | exact absurd rfl hb
      | exact ⟨_, rfl⟩

lemma insertFP_total {a : FP} (ha : a ≠ .nan) :
    ∀ (l : List FP), (∀ b ∈ l, b ≠ .nan) →
      ∃ r, insertFP a l = some r ∧ ∀ x ∈ r, x = a ∨ x ∈ l := by
  intro l
  induction l with
  | nil =>
    intro _
    refine ⟨[a], rfl, ?_⟩
    intro x hx
    exact .inl (List.mem_singleton.mp hx)
  | cons b l ih =>
    intro hl
    obtain ⟨o, ho⟩ := FP.cmpOpt_isSome ha (hl b (by simp))
    obtain ⟨r, hr, hmem⟩ := ih (fun x hx => hl x (List.mem_cons_of_mem _ hx))
    cases o with
    | lt =>
      refine ⟨a :: b :: l, ?_, ?_⟩
      · unfold insertFP
        rw [ho]
      · intro x hx
        rcases List.mem_cons.mp hx with h | h
        · exact .inl h
        · exact .inr h
    | eq =>
      refine ⟨b :: r, ?_, ?_⟩
      · unfold insertFP
        rw [ho, hr]
        rfl
      · intro x hx
        rcases List.mem_cons.mp hx with h | h
        · exact .inr (h ▸ List.mem_cons_self b l)
        · rcases hmem x h with h2 | h2
          · exact .inl h2
          · exact .inr (List.mem_cons_of_mem _ h2)
    | gt =>
      refine ⟨b :: r, ?_, ?_⟩
      · unfold insertFP
        rw [ho, hr]
        rfl
      · intro x hx
        rcases List.mem_cons.mp hx with h | h
        · exact .inr (h ▸ List.mem_cons_self b l)
        · rcases hmem x h with h2 | h2
          · exact .inl h2
          · exact .inr (List.mem_cons_of_mem _ h2)

lemma sortByFP_total :
    ∀ (l : List FP), (∀ b ∈ l, b ≠ .nan) →
      ∃ r, sortByFP l = some r ∧ ∀ x ∈ r, x ∈ l := by
  intro l
  induction l with
  | nil =>
    intro _
    exact ⟨[], rfl, fun x hx => absurd hx (List.not_mem_nil x)⟩
  | cons a l ih =>
    intro hl
    obtain ⟨r, hr, hmem⟩ := ih (fun x hx => hl x (List.mem_cons_of_mem _ hx))
    have hanot : a ≠ .nan := hl a (by simp)
    have hrnot : ∀ b ∈ r, b ≠ .nan :=
      fun b hb => hl b (List.mem_cons_of_mem _ (hmem b hb))
    obtain ⟨r2, hr2, hmem2⟩ := insertFP_total hanot r hrnot
    refine ⟨r2, ?_, ?_⟩
    · unfold sortByFP
      rw [hr]
      exact hr2
    · intro x hx
      rcases hmem2 x hx with h | h
      · exact h ▸ List.mem_cons_self a l
      · exact List.mem_cons_of_mem _ (hmem x h)

lemma axisInterval_pos (span : ℚ) : 0 < axisInterval span := by
  unfold axisInterval
  exact div_pos (zpow_pos (by norm_num) _) (by norm_num)

lemma clog_ratCast_real (q : ℚ) (hq : 0 < q) :
    Int.clog 10 ((q : ℝ)) = Int.clog 10 q := by
  have hqR : (0 : ℝ) < (q : ℝ) := by exact_mod_cast hq
  apply le_antisymm
  · rw [← Int.le_zpow_iff_clog_le (by norm_num) hqR]
    have base : q ≤ ((10 : ℕ) : ℚ) ^ Int.clog 10 q :=
      Int.self_le_zpow_clog (b := 10) (by norm_num) q
    have cast1 : (q : ℝ) ≤ ((((10 : ℕ) : ℚ) ^ Int.clog 10 q : ℚ) : ℝ) :=
      Rat.cast_le.mpr base
    rw [Rat.cast_zpow] at cast1
    rwa [show (((10 : ℕ) : ℚ) : ℝ) = ((10 : ℕ) : ℝ) by norm_cast] at cast1
  · rw [← Int.le_zpow_iff_clog_le (by norm_num) hq]
    have base : (q : ℝ) ≤ ((10 : ℕ) : ℝ) ^ Int.clog 10 ((q : ℝ)) :=
      Int.self_le_zpow_clog (b := 10) (by norm_num) ((q : ℝ))
    rw [show ((10 : ℕ) : ℝ) = (((10 : ℕ) : ℚ) : ℝ) by norm_cast,
      ← Rat.cast_zpow] at base
    exact_mod_cast base

lemma axisInterval_cast_real (span : ℚ) (h : 0 < span) :
    ((axisInterval span : ℚ) : ℝ) =
      (10 : ℝ) ^ ⌈Real.logb 10 ((span : ℝ))⌉ / 20 := by
  have h1 : ⌈Real.logb 10 ((span : ℝ))⌉ = Int.clog 10 ((span : ℝ)) := by
    have := Real.ceil_logb_natCast (b := 10) (r := (span : ℝ))
      (by exact_mod_cast h.le)
    simpa using this
  rw [axisInterval, ceilLog10, h1, clog_ratCast_real span h]
  push_cast
  ring

lemma floor_mult_le (x I : ℚ) (hI : 0 < I) : (⌊x / I⌋ : ℚ) * I ≤ x := by
  have h1 : (⌊x / I⌋ : ℚ) ≤ x / I := Int.floor_le _
  calc (⌊x / I⌋ : ℚ) * I ≤ x / I * I := mul_le_mul_of_nonneg_right h1 hI.le
    _ = x := div_mul_cancel₀ x hI.ne'

lemma le_ceil_mult (x I : ℚ) (hI : 0 < I) : x ≤ (⌈x / I⌉ : ℚ) * I := by
  have h1 : x / I ≤ (⌈x / I⌉ : ℚ) := Int.le_ceil _
  calc x = x / I * I := (div_mul_cancel₀ x hI.ne').symm
    _ ≤ (⌈x / I⌉ : ℚ) * I := mul_le_mul_of_nonneg_right h1 hI.le

lemma floor_mult_greatest (x I : ℚ) (hI : 0 < I) (m : ℤ) (hm : (m : ℚ) * I ≤ x) :
    (m : ℚ) * I ≤ (⌊x / I⌋ : ℚ) * I := by
  have h1 : (m : ℚ) ≤ x / I := (le_div_iff₀ hI).mpr hm
  have h2 : m ≤ ⌊x / I⌋ := Int.le_floor.mpr h1
  exact mul_le_mul_of_nonneg_right (by exact_mod_cast h2) hI.le

lemma ceil_mult_least (x I : ℚ) (hI : 0 < I) (m : ℤ) (hm : x ≤ (m : ℚ) * I) :
    (⌈x / I⌉ : ℚ) * I ≤ (m : ℚ) * I := by
  have h1 : x / I ≤ (m : ℚ) := (div_le_iff₀ hI).mpr hm
  have h2 : ⌈x / I⌉ ≤ m := Int.ceil_le.mpr h1
  exact mul_le_mul_of_nonneg_right (by exact_mod_cast h2) hI.le

/-- C1: the claim says `upper_outliers` is the trailing run of sorted
values strictly greater than `upper_fence`.  The code instead takes a
`take_while` prefix from the **front** of the ascending array
(`src/quartile.rs:53-57`).  At the input `[1,1,1,1,1,1,1,100]` the upper
fence is `1`, the value `100` lies strictly above it, the trailing run is
`[100]`, yet the code's `upper_outliers` is empty — the claimed partition
fails on the code. -/
theorem claim_C1_upper_outliers_front_scan :
    qupperFence [1, 1, 1, 1, 1, 1, 1, 100] = 1 ∧
    qupperFence [1, 1, 1, 1, 1, 1, 1, 100] < 100 ∧
    (100 : ℚ) ∈ ([1, 1, 1, 1, 1, 1, 1, 100] : List ℚ) ∧
    ((sortValues [1, 1, 1, 1, 1, 1, 1, 100]).reverse.takeWhile
      (fun n => decide (qupperFence [1, 1, 1, 1, 1, 1, 1, 100] < n))).reverse =
      [100] ∧
    (mkQuartile [1, 1, 1, 1, 1, 1, 1, 100]).upper_outliers = [] := by
  with_unfolding_all decide

/-- C7: for every input of at least three values the quartile summary
satisfies `min_before_lower_fence ≤ lower_median ≤ median ≤ upper_median ≤
max_before_upper_fence`. -/
theorem claim_C7_ordering_chain (values : List ℚ) (h : 3 ≤ values.length) :
    (mkQuartile values).min_before_lower_fence ≤ (mkQuartile values).lower_median ∧
    (mkQuartile values).lower_median ≤ (mkQuartile values).median ∧
    (mkQuartile values).median ≤ (mkQuartile values).upper_median ∧
    (mkQuartile values).upper_median ≤ (mkQuartile values).max_before_upper_fence :=
  ⟨qminBefore_le_qlowerMedian values h, qlowerMedian_le_qmedian values h,
   qmedian_le_qupperMedian values h, qupperMedian_le_qmaxBefore values h⟩

/-- Witness for C7 at the repository's even-length test input. -/
theorem claim_C7_witness :
    (mkQuartile [48, 52, 57, 64, 72, 76, 77, 81, 85, 88]).min_before_lower_fence ≤
      (mkQuartile [48, 52, 57, 64, 72, 76, 77, 81, 85, 88]).lower_median ∧
    (mkQuartile [48, 52, 57, 64, 72, 76, 77, 81, 85, 88]).lower_median ≤
      (mkQuartile [48, 52, 57, 64, 72, 76, 77, 81, 85, 88]).median ∧
    (mkQuartile [48, 52, 57, 64, 72, 76, 77, 81, 85, 88]).median ≤
      (mkQuartile [48, 52, 57, 64, 72, 76, 77, 81, 85, 88]).upper_median ∧
    (mkQuartile [48, 52, 57, 64, 72, 76, 77, 81, 85, 88]).upper_median ≤
      (mkQuartile [48, 52, 57, 64, 72, 76, 77, 81, 85, 88]).max_before_upper_fence :=
  claim_C7_ordering_chain [48, 52, 57, 64, 72, 76, 77, 81, 85, 88] (by decide)

/-- C8: for every NaN-free input of at least three values the
`upper_outliers` list the code produces is empty (the front `take_while`
stops at the first element, which never exceeds the upper fence), so
`max_before_upper_fence` and `max_value()` both equal the largest input
value. -/
theorem claim_C8_upper_outliers_empty (values : List ℚ) (h : 3 ≤ values.length) :
    (mkQuartile values).upper_outliers = [] ∧
    (mkQuartile values).max_value = (mkQuartile values).max_before_upper_fence ∧
    (mkQuartile values).max_before_upper_fence ∈ values ∧
    ∀ v ∈ values, v ≤ (mkQuartile values).max_before_upper_fence := by
  have hnil : qupperOutliers values = [] := qupperOutliers_eq_nil values h
  have hmaxeq : (mkQuartile values).max_before_upper_fence =
      (sortValues values).getD (qlen values - 1) 0 := qmaxBefore_eq_last values h
  refine ⟨hnil, ?_, ?_, ?_⟩
  · unfold Quartile.max_value
    have hmk : (mkQuartile values).upper_outliers = [] := hnil
    rw [hmk]
    rfl
  · rw [hmaxeq]
    exact last_mem values h
  · intro v hv
    rw [hmaxeq]
    exact mem_le_last values h hv

/-- Witness for C8 at the repository's odd-length test input. -/
theorem claim_C8_witness :
    (mkQuartile [5, 6, 48, 52, 57, 61, 64, 72, 76, 77, 81, 85, 88]).upper_outliers
      = [] ∧
    Quartile.max_value (mkQuartile [5, 6, 48, 52, 57, 61, 64, 72, 76, 77, 81, 85, 88])
      = (mkQuartile [5, 6, 48, 52, 57, 61, 64, 72, 76, 77, 81, 85, 88]).max_before_upper_fence :=
  ⟨(claim_C8_upper_outliers_empty
      [5, 6, 48, 52, 57, 61, 64, 72, 76, 77, 81, 85, 88] (by decide)).1,
   (claim_C8_upper_outliers_empty
      [5, 6, 48, 52, 57, 61, 64, 72, 76, 77, 81, 85, 88] (by decide)).2.1⟩

/-- C9: a NaN in an input of at least three values makes `Quartile::new`
panic (the sort comparator unwraps `partial_cmp`, which is `None` on NaN)
— modelled as `none` — rather than return an `Err`; and on NaN-free input
the function never panics. -/
theorem claim_C9_nan_panic :
    Quartile.newFP [.fin 1, .nan, .fin 2] = none ∧
    ∀ values : List FP, (∀ v ∈ values, v ≠ .nan) →
      Quartile.newFP values ≠ none := by
  constructor
  · with_unfolding_all decide
  · intro values hfree
    unfold Quartile.newFP
    by_cases hlen : values.length < 3
    · rw [if_pos hlen]
      simp
    · rw [if_neg hlen]
      obtain ⟨r, hr, _⟩ := sortByFP_total values hfree
      rw [hr]
      simp

/-- Witness for C9: a NaN-free input is processed without panic. -/
theorem claim_C9_witness : Quartile.newFP [.fin 4, .fin 5, .fin 6] ≠ none :=
  claim_C9_nan_panic.2 [.fin 4, .fin 5, .fin 6] (by decide)

/-- C10: for every NaN-free input of at least three values, every index
`Quartile::new` reads is in bounds: `midpoint - 1` and the upper-median
index for the even case, the upper-median index for the odd case,
`midpoint / 2`, `lower_outliers.len()`, and
`len - upper_outliers.len() - 1` (no `usize` underflow). -/
theorem claim_C10_indices_in_bounds (values : List ℚ) (h : 3 ≤ values.length) :
    qlen values = values.length ∧
    (qlen values % 2 = 0 → 1 ≤ qmid values ∧
      qmid values + qmid values / 2 < qlen values) ∧
    (qlen values % 2 ≠ 0 → qmid values + 1 + qmid values / 2 < qlen values) ∧
    qmid values / 2 < qlen values ∧
    (qlowerOutliers values).length < qlen values ∧
    (qupperOutliers values).length + 1 ≤ qlen values ∧
    qlen values - (qupperOutliers values).length - 1 < qlen values := by
  have hq : qlen values = values.length := qlen_eq values
  have hmid : qmid values = qlen values / 2 := rfl
  have hlow := qlowerOutliers_length_le values h
  have hmh := qmidHalf_lt_qlen values h
  have hup : (qupperOutliers values).length = 0 := by
    rw [qupperOutliers_eq_nil values h]
    rfl
  refine ⟨hq, fun hpar => ⟨?_, ?_⟩, fun hpar => ?_, hmh, ?_, ?_, ?_⟩ <;> omega

/-- Witness for C10 at the repository's even-length test input. -/
theorem claim_C10_witness :
    qlen [48, 52, 57, 64, 72, 76, 77, 81, 85, 88] =
      ([48, 52, 57, 64, 72, 76, 77, 81, 85, 88] : List ℚ).length ∧
    (qlowerOutliers [48, 52, 57, 64, 72, 76, 77, 81, 85, 88]).length <
      qlen [48, 52, 57, 64, 72, 76, 77, 81, 85, 88] :=
  ⟨(claim_C10_indices_in_bounds [48, 52, 57, 64, 72, 76, 77, 81, 85, 88]
      (by decide)).1,
   (claim_C10_indices_in_bounds [48, 52, 57, 64, 72, 76, 77, 81, 85, 88]
      (by decide)).2.2.2.2.1⟩

/-- C3: `Quartile::new` returns an error exactly when its input has fewer
than 3 values; `process_chart_data` returns a `RenderData` exactly when
every series has at least 3 values (so on failure only an error value — no
`RenderData` — exists); and when a series is too short the whole run
aborts at the first offending series, whatever follows it. -/
theorem claim_C3_insufficient_data :
    (∀ values : List ℚ,
      (∃ q, Quartile.new values = .ok q) ↔ 3 ≤ values.length) ∧
    (∀ cd : ChartData,
      (∃ rd, process_chart_data cd = .ok rd) ↔
        ∀ it ∈ cd.data, 3 ≤ it.values.length) ∧
    (∀ cd : ChartData, ∀ pre bad post, cd.data = pre ++ bad :: post →
      (∀ it ∈ pre, 3 ≤ it.values.length) → bad.values.length < 3 →
      process_chart_data cd =
        .error "Minimum of 3 values needed for a quartile range") := by
  refine ⟨?_, ?_, ?_⟩
  · intro values
    unfold Quartile.new
    by_cases h : values.length < 3
    · rw [if_pos h]
      constructor
      · rintro ⟨q, hq⟩
        exact Except.noConfusion hq
      · intro h3
        exact absurd h3 (by omega)
    · rw [if_neg h]
      constructor
      · intro _
        omega
      · intro _
        exact ⟨_, rfl⟩
  · intro cd
    constructor
    · rintro ⟨rd, hrd⟩
      cases hfold : quartilesAndRange cd.data with
      | error e =>
        rw [process_eq_of_fold_err cd e hfold] at hrd
        exact Except.noConfusion hrd
      | ok r =>
        exact (foldlM_step_ok_iff cd.data _).mp ⟨r, hfold⟩
    · intro hall
      obtain ⟨r, hr⟩ :=
        (foldlM_step_ok_iff cd.data ([], f64MAX, f64MIN)).mpr hall
      exact ⟨_, process_eq_of_fold_ok cd r hr⟩
  · intro cd pre bad post hdata hpre hbad
    have hfold : quartilesAndRange cd.data =
        .error "Minimum of 3 values needed for a quartile range" := by
      unfold quartilesAndRange
      rw [hdata]
      exact foldlM_step_through post bad hbad pre _ hpre
    exact process_eq_of_fold_err cd _ hfold

/-- Witness for C3: a chart whose second series has only 2 values fails
with the insufficient-data error. -/
theorem claim_C3_witness :
    process_chart_data
      { title := "t", units := "u",
        data := [{ key := "a", values := [1, 2, 3] },
                 { key := "b", values := [1, 2] },
                 { key := "c", values := [7, 8, 9] }] } =
      .error "Minimum of 3 values needed for a quartile range" :=
  claim_C3_insufficient_data.2.2 _ [{ key := "a", values := [1, 2, 3] }]
    { key := "b", values := [1, 2] } [{ key := "c", values := [7, 8, 9] }]
    rfl (by decide) (by decide)

/-- C4: after sorting ascending, with `n` the length and `mid = n / 2`:
even `n` gives `median = (arr[mid-1] + arr[mid]) / 2` and
`upper_median = arr[mid + mid/2]`; odd `n` gives `median = arr[mid]` and
`upper_median = arr[mid + 1 + mid/2]`; in both cases
`lower_median = arr[mid/2]`, `iqr = upper_median - lower_median`,
`lower_fence = lower_median - 1.5 iqr`, and
`upper_fence = upper_median + 1.5 iqr`. -/
theorem claim_C4_index_formulas (values : List ℚ) (h : 3 ≤ values.length) :
    Quartile.new values = .ok (mkQuartile values) ∧
    ((sortValues values).length % 2 = 0 →
      (mkQuartile values).median =
        ((sortValues values).getD ((sortValues values).length / 2 - 1) 0 +
          (sortValues values).getD ((sortValues values).length / 2) 0) / 2 ∧
      (mkQuartile values).upper_median =
        (sortValues values).getD
          ((sortValues values).length / 2 +
            (sortValues values).length / 2 / 2) 0) ∧
    ((sortValues values).length % 2 ≠ 0 →
      (mkQuartile values).median =
        (sortValues values).getD ((sortValues values).length / 2) 0 ∧
      (mkQuartile values).upper_median =
        (sortValues values).getD
          ((sortValues values).length / 2 + 1 +
            (sortValues values).length / 2 / 2) 0) ∧
    (mkQuartile values).lower_median =
      (sortValues values).getD ((sortValues values).length / 2 / 2) 0 ∧
    (mkQuartile values).iqr =
      (mkQuartile values).upper_median - (mkQuartile values).lower_median ∧
    (mkQuartile values).lower_fence =
      (mkQuartile values).lower_median - 3 / 2 * (mkQuartile values).iqr ∧
    (mkQuartile values).upper_fence =
      (mkQuartile values).upper_median + 3 / 2 * (mkQuartile values).iqr := by
  refine ⟨?_, fun hpar => ⟨?_, ?_⟩, fun hpar => ⟨?_, ?_⟩, rfl, rfl, rfl, rfl⟩
  · unfold Quartile.new
    rw [if_neg (by omega)]
  · show qmedian values = _
    have hpar' : qlen values % 2 = 0 := hpar
    unfold qmedian
    rw [if_pos hpar']
    rfl
  · show qupperMedian values = _
    have hpar' : qlen values % 2 = 0 := hpar
    unfold qupperMedian
    rw [if_pos hpar']
    rfl
  · show qmedian values = _
    have hpar' : ¬ qlen values % 2 = 0 := hpar
    unfold qmedian
    rw [if_neg hpar']
    rfl
  · show qupperMedian values = _
    have hpar' : ¬ qlen values % 2 = 0 := hpar
    unfold qupperMedian
    rw [if_neg hpar']
    rfl

/-- Witness for C4 at the repository's even-length test input. -/
theorem claim_C4_witness :
    Quartile.new [48, 52, 57, 64, 72, 76, 77, 81, 85, 88] =
      .ok (mkQuartile [48, 52, 57, 64, 72, 76, 77, 81, 85, 88]) ∧
    (mkQuartile [48, 52, 57, 64, 72, 76, 77, 81, 85, 88]).lower_median =
      (sortValues [48, 52, 57, 64, 72, 76, 77, 81, 85, 88]).getD
        ((sortValues [48, 52, 57, 64, 72, 76, 77, 81, 85, 88]).length / 2 / 2) 0 :=
  ⟨(claim_C4_index_formulas [48, 52, 57, 64, 72, 76, 77, 81, 85, 88]
      (by decide)).1,
   (claim_C4_index_formulas [48, 52, 57, 64, 72, 76, 77, 81, 85, 88]
      (by decide)).2.2.2.1⟩

set_option maxRecDepth 8000 in
set_option exponentiation.threshold 1100 in
/-- C2: the claim says a zero aggregated span is handled locally with a
fallback default interval, producing a finite positive interval and finite
snapped bounds.  The code has no such special case (`src/lib.rs:162-175`):
with all values equal (series `[5,5,5]`, aggregated range `(5,5)`) the
`f64` computation gives `log10(0) = -inf`, `interval = 10^(-inf)/20 = 0`,
`y_axis_dps` saturating to `usize::MAX`, and snapped bounds
`floor(5/0) * 0 = inf * 0 = NaN` — whatever the finite-positive `log10`
branch `f` is. -/
theorem claim_C2_zero_span_not_special_cased :
    aggRange { title := "t", units := "u",
               data := [{ key := "a", values := [5, 5, 5] }] } = .ok (5, 5) ∧
    ∀ f : ℚ → FP, axisPlanFP f (.fin 5) (.fin 5) =
      (.fin 0, 2 ^ 64 - 1, (.nan, .nan)) := by
  constructor
  · with_unfolding_all decide
  · intro f
    with_unfolding_all rfl

/-- C5: the value-to-y map is the claimed affine formula, and the outlier
circles and box landmarks go through the same map; but the division by
`range_max - range_min` is NOT guarded (`src/lib.rs:214`): at a degenerate
range the divisor is exactly 0, and the `f64` division produces `+inf`. -/
theorem claim_C5_value_to_y_map :
    (∀ rd : RenderData, ∀ v : ℚ, scaleValue rd v =
      rd.gutter.top + rd.gutter.bottom + rd.y_axis_height - rd.gutter.bottom -
        (v - rd.y_axis_range.1) *
          (rd.y_axis_height / (rd.y_axis_range.2 - rd.y_axis_range.1))) ∧
    (∀ rd : RenderData, ∀ v : ℚ, outlierCY rd v = scaleValue rd v) ∧
    (∀ rd : RenderData, ∀ q : Quartile, boxLandmarkYs rd q =
      [scaleValue rd q.max_before_upper_fence, scaleValue rd q.upper_median,
       scaleValue rd q.median, scaleValue rd q.lower_median,
       scaleValue rd q.min_before_lower_fence]) ∧
    rdDegenerate.y_axis_range.2 - rdDegenerate.y_axis_range.1 = 0 ∧
    yScaleFP (.fin rdDegenerate.y_axis_height)
      (.fin rdDegenerate.y_axis_range.1)
      (.fin rdDegenerate.y_axis_range.2) = .pinf := by
  refine ⟨fun rd v => rfl, fun rd v => rfl, fun rd q => rfl, ?_, ?_⟩
  · with_unfolding_all decide
  · with_unfolding_all decide

/-- C6: with a positive aggregated span the planner's interval is
`10^(ceil(log10(range_max - range_min))) / 20`, and the snapped bounds are
`floor(range_min/interval) * interval` and
`ceil(range_max/interval) * interval`: exact integer multiples of the
interval, respectively the greatest multiple at most `range_min` and the
least multiple at least `range_max`. -/
theorem claim_C6_axis_planner (cd : ChartData) (lo hi : ℚ)
    (hagg : aggRange cd = .ok (lo, hi)) (hspan : 0 < hi - lo) :
    ∃ rd, process_chart_data cd = .ok rd ∧
      rd.y_axis_interval = axisInterval (hi - lo) ∧
      ((rd.y_axis_interval : ℚ) : ℝ) =
        (10 : ℝ) ^ ⌈Real.logb 10 (((hi - lo : ℚ) : ℝ))⌉ / 20 ∧
      0 < rd.y_axis_interval ∧
      rd.y_axis_range.1 = (⌊lo / rd.y_axis_interval⌋ : ℚ) * rd.y_axis_interval ∧
      rd.y_axis_range.2 = (⌈hi / rd.y_axis_interval⌉ : ℚ) * rd.y_axis_interval ∧
      (∃ m : ℤ, rd.y_axis_range.1 = (m : ℚ) * rd.y_axis_interval) ∧
      (∃ m : ℤ, rd.y_axis_range.2 = (m : ℚ) * rd.y_axis_interval) ∧
      rd.y_axis_range.1 ≤ lo ∧ hi ≤ rd.y_axis_range.2 ∧
      (∀ m : ℤ, (m : ℚ) * rd.y_axis_interval ≤ lo →
        (m : ℚ) * rd.y_axis_interval ≤ rd.y_axis_range.1) ∧
      (∀ m : ℤ, hi ≤ (m : ℚ) * rd.y_axis_interval →
        rd.y_axis_range.2 ≤ (m : ℚ) * rd.y_axis_interval) := by
  cases hq : quartilesAndRange cd.data with
  | error e =>
    unfold aggRange at hagg
    rw [hq] at hagg
    simp [Except.map] at hagg
  | ok r =>
    obtain ⟨t, lo', hi'⟩ := r
    have hpair : lo' = lo ∧ hi' = hi := by
      unfold aggRange at hagg
      rw [hq] at hagg
      simp [Except.map] at hagg
      exact hagg
    obtain ⟨h1, h2⟩ := hpair
    subst h1
    subst h2
    have hI : 0 < axisInterval (hi' - lo') := axisInterval_pos _
    refine ⟨_, process_eq_of_fold_ok cd (t, lo', hi') hq,
      rfl, axisInterval_cast_real (hi' - lo') hspan, hI,
      rfl, rfl,
      ⟨⌊lo' / axisInterval (hi' - lo')⌋, rfl⟩,
      ⟨⌈hi' / axisInterval (hi' - lo')⌉, rfl⟩,
      floor_mult_le lo' _ hI, le_ceil_mult hi' _ hI,
      fun m hm => floor_mult_greatest lo' _ hI m hm,
      fun m hm => ceil_mult_least hi' _ hI m hm⟩

set_option maxRecDepth 8000 in
set_option exponentiation.threshold 1100 in
/-- Witness for C6 at a one-series chart with aggregated range `(1, 3)`. -/
theorem claim_C6_witness :
    ∃ rd, process_chart_data
        { title := "t", units := "u",
          data := [{ key := "a", values := [1, 2, 3] }] } = .ok rd ∧
      rd.y_axis_interval = axisInterval ((3 : ℚ) - 1) ∧
      ((rd.y_axis_interval : ℚ) : ℝ) =
        (10 : ℝ) ^ ⌈Real.logb 10 ((((3 : ℚ) - 1 : ℚ) : ℝ))⌉ / 20 ∧
      0 < rd.y_axis_interval ∧
      rd.y_axis_range.1 =
        (⌊(1 : ℚ) / rd.y_axis_interval⌋ : ℚ) * rd.y_axis_interval ∧
      rd.y_axis_range.2 =
        (⌈(3 : ℚ) / rd.y_axis_interval⌉ : ℚ) * rd.y_axis_interval ∧
      (∃ m : ℤ, rd.y_axis_range.1 = (m : ℚ) * rd.y_axis_interval) ∧
      (∃ m : ℤ, rd.y_axis_range.2 = (m : ℚ) * rd.y_axis_interval) ∧
      rd.y_axis_range.1 ≤ 1 ∧ (3 : ℚ) ≤ rd.y_axis_range.2 ∧
      (∀ m : ℤ, (m : ℚ) * rd.y_axis_interval ≤ 1 →
        (m : ℚ) * rd.y_axis_interval ≤ rd.y_axis_range.1) ∧
      (∀ m : ℤ, (3 : ℚ) ≤ (m : ℚ) * rd.y_axis_interval →
        rd.y_axis_range.2 ≤ (m : ℚ) * rd.y_axis_interval) :=
  claim_C6_axis_planner
    { title := "t", units := "u",
      data := [{ key := "a", values := [1, 2, 3] }] } 1 3
    (by with_unfolding_all decide) (by norm_num)

end BoxPlotChart
